import Mathlib

/-!
Verification of the ReleaseTracker backend (Python, FastAPI + aiosqlite)
against its natural-language specification.

The development is a shallow embedding of the relevant parts of
`backend/src/releasetracker/`:

* `storage/sqlite.py`   — the `releases` / `release_history` / `tracker_status`
  tables, `save_release`, `select_best_release`, the delete operations;
* `trackers/base.py`    — `should_include_in_channel` and `_should_include`;
* `trackers/github.py`, `gitlab.py`, `helm.py` — the post-parse stage of
  `fetch_all` (the part downstream of the HTTP request);
* `scheduler.py`        — the per-check channel selection and fetch limits;
* `notifiers/webhook.py`— the 429 rate-limit retry loop of `notify`;
* `routers/credentials.py` — the token masking of the list/detail endpoints;
* `routers/trackers.py` — `delete_tracker`.

Modelling conventions:

* SQLite TEXT columns are `String`, nullable columns are `Option String`;
  a row's `published_at` is kept as the ISO-8601 string actually stored and
  compared by the code (`release.published_at.isoformat()`).
* Python truthiness of an optional string (`if release.commit_sha and ...`)
  is `truthy`: `none` and `some ""` are falsy.
* Python `re` is abstracted by two oracles: `reValid p` tells whether a
  pattern compiles (`re.error` otherwise), and `reMatch p s` is
  `re.search(p, s) is not None` for a valid pattern.  Ordering of
  `datetime.timestamp()` values is likewise abstracted by an oracle `tsLt`
  on the stored ISO strings.  Counterexamples instantiate the oracles.
* A raised exception is `Except.error`; since every statement of
  `save_release` runs in one implicitly-begun transaction that is only
  committed at the end, an error leaves the store unchanged.
* Wall-clock columns (`created_at`, `recorded_at`) appear in no claim and
  are omitted from the row types.
-/

namespace ReleaseTracker

/-- Truthiness of an optional string, as Python evaluates `if s:`. -/
def truthy : Option String → Bool
  | none => false
  | some s => !(s == "")

/-- Substring containment, as Python `keyword in version_lower`.  An
occurrence of a non-empty pattern splits the string into at least two
pieces. -/
def containsSub (s pat : String) : Bool :=
  pat == "" || (s.splitOn pat).length > 1

/-- A release draft as produced by an adapter (`models.Release` without the
wall-clock `created_at` and the row id). -/
structure Release where
  tracker_name : String
  name : String
  tag_name : String
  version : String
  published_at : String
  url : String
  prerelease : Bool
  body : Option String
  channel_name : Option String
  commit_sha : Option String
deriving DecidableEq, Repr

/-- A row of the `releases` table.  `commit_sha`, `body`, `channel_name` are
nullable columns added by the additive migrations in `initialize`. -/
structure ReleaseRow where
  id : Nat
  tracker_name : String
  name : String
  tag_name : String
  version : String
  published_at : String
  url : String
  prerelease : Bool
  body : Option String
  channel_name : Option String
  commit_sha : Option String
  republish_count : Nat
deriving DecidableEq, Repr

/-- A row of the `release_history` table.  The schema declares
`commit_sha TEXT NOT NULL`; the constraint is enforced at insertion time
inside `save_release`, which is why the field is an `Option` here. -/
structure HistoryRow where
  release_id : Nat
  name : Option String
  commit_sha : Option String
  published_at : String
  body : Option String
  channel_name : Option String
deriving DecidableEq, Repr

/-- The store: the tables the claims are about.  `tracker_status` and
`trackers` rows are represented by their primary key (`name`), the only
column any claim inspects.  `next_id` models the AUTOINCREMENT counter of
`releases.id`, which never reuses an id. -/
structure Store where
  releases : List ReleaseRow
  release_history : List HistoryRow
  tracker_status : List String
  tracker_configs : List String
  next_id : Nat
deriving DecidableEq, Repr

/-- The empty store produced by `initialize` on a fresh database file. -/
def initStore : Store := ⟨[], [], [], [], 0⟩

/-- The dictionary returned by `save_release`:
`{"is_new": ..., "is_republish": ..., "old_commit": ...}`. -/
structure SaveResult where
  is_new : Bool
  is_republish : Bool
  old_commit : Option String
deriving DecidableEq, Repr

/-- The WHERE clause `tracker_name=? AND tag_name=?`. -/
def matches_key (tracker_name tag_name : String) (row : ReleaseRow) : Bool :=
  row.tracker_name == tracker_name && row.tag_name == tag_name

/-- The `SELECT ... WHERE tracker_name=? AND tag_name=?` + `fetchone()` of
`save_release` (sqlite.py:494-502). -/
def find_release (st : Store) (tracker_name tag_name : String) : Option ReleaseRow :=
  st.releases.find? (matches_key tracker_name tag_name)

/-- The row inserted by the INSERT of `save_release` (sqlite.py:469-488):
all fields from the draft, `republish_count` literal `0`, id from
AUTOINCREMENT. -/
def insert_row (st : Store) (r : Release) : ReleaseRow :=
  ⟨st.next_id, r.tracker_name, r.name, r.tag_name, r.version, r.published_at,
   r.url, r.prerelease, r.body, r.channel_name, r.commit_sha, 0⟩

/-- The `release_history` INSERT of `save_release` (sqlite.py:533-548): a
snapshot of the pre-overwrite row. -/
def history_snapshot (old : ReleaseRow) : HistoryRow :=
  ⟨old.id, some old.name, old.commit_sha, old.published_at, old.body, old.channel_name⟩

/-- The UPDATE of the republish branch (sqlite.py:551-570). -/
def republish_update (r : Release) (cnt : Nat) (row : ReleaseRow) : ReleaseRow :=
  { row with
    name := r.name
    version := r.version
    published_at := r.published_at
    url := r.url
    prerelease := r.prerelease
    body := r.body
    channel_name := r.channel_name
    commit_sha := r.commit_sha
    republish_count := cnt }

/-- The UPDATE of the metadata branch (sqlite.py:573-591);
`release.commit_sha or old_commit_sha` keeps the stored SHA when the
incoming one is falsy. -/
def metadata_update (r : Release) (old_commit : Option String) (row : ReleaseRow) : ReleaseRow :=
  { row with
    name := r.name
    version := r.version
    published_at := r.published_at
    url := r.url
    prerelease := r.prerelease
    body := r.body
    channel_name := r.channel_name
    commit_sha := if truthy r.commit_sha then r.commit_sha else old_commit }

/-- SQL `UPDATE releases SET ... WHERE tracker_name=? AND tag_name=?`:
every matching row is rewritten. -/
def update_where (rows : List ReleaseRow) (tracker_name tag_name : String)
    (f : ReleaseRow → ReleaseRow) : List ReleaseRow :=
  rows.map (fun row => if matches_key tracker_name tag_name row then f row else row)

/-- The republish decision of `save_release` (sqlite.py:509-521): when
both the incoming and the stored `commit_sha` are truthy, republish iff
they differ; otherwise republish iff the incoming
`published_at.isoformat()` differs from the stored string. -/
def republish_cond (r : Release) (old : ReleaseRow) : Bool :=
  if truthy r.commit_sha && truthy old.commit_sha then
    old.commit_sha != r.commit_sha
  else
    r.published_at != old.published_at

/-- `SQLiteStorage.save_release` (sqlite.py:456-598).

The INSERT raises `IntegrityError` exactly when a row with the same
`(tracker_name, tag_name)` exists; the handler re-reads that row and
decides republish via `republish_cond`.  On republish the pre-overwrite
snapshot is inserted into `release_history` — whose `commit_sha` column
is NOT NULL, so a stored SQL NULL raises a second, uncaught
`IntegrityError` and the whole transaction is rolled back. -/
def save_release (st : Store) (r : Release) : Except String (Store × SaveResult) :=
  match find_release st r.tracker_name r.tag_name with
  | none =>
      .ok ({ st with
             releases := st.releases ++ [insert_row st r]
             next_id := st.next_id + 1 },
           ⟨true, false, none⟩)
  | some old =>
      if republish_cond r old then
        if old.commit_sha = none then
          .error "IntegrityError: NOT NULL constraint failed: release_history.commit_sha"
        else
          let rows := update_where st.releases r.tracker_name r.tag_name
            (republish_update r (old.republish_count + 1))
          .ok ({ st with
                 release_history := st.release_history ++ [history_snapshot old]
                 releases := rows },
               ⟨false, true, old.commit_sha⟩)
      else
        let rows := update_where st.releases r.tracker_name r.tag_name
          (metadata_update r old.commit_sha)
        .ok ({ st with releases := rows }, ⟨false, false, none⟩)

/-- Projection: the verdict of a save, `none` when the save raised. -/
def save_verdict (res : Except String (Store × SaveResult)) : Option SaveResult :=
  match res with
  | .ok (_, v) => some v
  | .error _ => none

/-- A channel configuration (`config.Channel`).  The pydantic model
restricts `name` to four literals and `type` to
`Literal["release", "prerelease"] | None`; `Channel.WF` states those
restrictions. -/
structure Channel where
  name : String
  type : Option String
  include_pattern : Option String
  exclude_pattern : Option String
  enabled : Bool
deriving DecidableEq, Repr

/-- The value restrictions pydantic places on a `Channel`. -/
def Channel.WF (ch : Channel) : Prop :=
  ch.name ∈ ["stable", "prerelease", "beta", "canary"] ∧
  ch.type ∈ [none, some "release", some "prerelease"]

instance (ch : Channel) : Decidable ch.WF := by
  unfold Channel.WF; infer_instance

/-- The legacy `filter` mapping of a tracker
(`filter_config` in `BaseTracker._should_include`). -/
structure FilterConfig where
  include_prerelease : Bool
  include_pattern : Option String
  exclude_pattern : Option String
deriving DecidableEq, Repr

/-- The slice of `BaseTracker.config` the filtering methods read. -/
structure TrackerSettings where
  channels : List Channel
  filter : FilterConfig
deriving DecidableEq, Repr

/-- `BaseTracker.should_include_in_channel` (trackers/base.py:122-168),
with Python `re` abstracted by the `reValid` / `reMatch` oracles: an
invalid pattern (`re.error`) imposes no constraint, an empty or absent
pattern is skipped by Python truthiness. -/
def should_include_in_channel (reValid : String → Bool) (reMatch : String → String → Bool)
    (r : Release) (ch : Channel) : Bool :=
  if ch.type == some "release" && r.prerelease then
    false
  else if ch.type == some "prerelease" && !r.prerelease then
    false
  else if truthy ch.include_pattern
      && reValid (ch.include_pattern.getD "")
      && !reMatch (ch.include_pattern.getD "") r.tag_name then
    false
  else if truthy ch.exclude_pattern
      && reValid (ch.exclude_pattern.getD "")
      && reMatch (ch.exclude_pattern.getD "") r.tag_name then
    false
  else
    true

/-- The keyword list of `BaseTracker._should_include`. -/
def prerelease_keywords : List String := ["alpha", "beta", "rc", "pre", "dev", "snapshot"]

/-- The legacy branch of `BaseTracker._should_include`
(trackers/base.py:43-87), taken when the tracker has no channel list. -/
def legacy_should_include (reValid : String → Bool) (reMatch : String → String → Bool)
    (f : FilterConfig) (r : Release) : Bool :=
  if !f.include_prerelease && r.prerelease then
    false
  else if !f.include_prerelease
      && prerelease_keywords.any (fun k => containsSub r.version.toLower k) then
    false
  else if truthy f.include_pattern
      && reValid (f.include_pattern.getD "")
      && !reMatch (f.include_pattern.getD "") r.tag_name then
    false
  else if truthy f.exclude_pattern
      && reValid (f.exclude_pattern.getD "")
      && reMatch (f.exclude_pattern.getD "") r.tag_name then
    false
  else
    true

/-- `BaseTracker._should_include` (trackers/base.py:28-87): with a
non-empty channel list, a draft passes iff some enabled channel includes
it; otherwise the legacy filter applies. -/
def should_include (reValid : String → Bool) (reMatch : String → String → Bool)
    (cfg : TrackerSettings) (r : Release) : Bool :=
  match cfg.channels with
  | [] => legacy_should_include reValid reMatch cfg.filter r
  | chs => chs.any (fun ch => ch.enabled && should_include_in_channel reValid reMatch r ch)

/-- The per-channel selection of a check (scheduler.py:147-155, identical
at scheduler.py:348-358): for each channel of the config — enabled or not,
the loop never consults `channel.enabled` — take the first draft the
channel includes and tag it with the channel's name. -/
def scheduler_channel_select (reValid : String → Bool) (reMatch : String → String → Bool)
    (channels : List Channel) (releases : List Release) : List Release :=
  channels.filterMap (fun ch =>
    (releases.find? (fun r => should_include_in_channel reValid reMatch r ch)).map
      (fun r => { r with channel_name := some ch.name }))

/-- Python `max(xs, key=...)`: the first element whose key every later
element fails to strictly exceed. -/
def python_max_by (tsLt : String → String → Bool) : List Release → Option Release
  | [] => none
  | r :: rs =>
    some (rs.foldl (fun best x => if tsLt best.published_at x.published_at then x else best) r)

/-- The per-release acceptance test inside
`SQLiteStorage.select_best_release` (sqlite.py:849-869).  Note the type
filter compares `channel.type` against the string "stable" — a value
`Channel.type` can never hold — rather than "release". -/
def sbr_accept (reValid : String → Bool) (reMatch : String → String → Bool)
    (ch : Channel) (r : Release) : Bool :=
  if ch.type == some "stable" && r.prerelease then
    false
  else if ch.type == some "prerelease" && !r.prerelease then
    false
  else if truthy ch.include_pattern
      && reValid (ch.include_pattern.getD "")
      && !reMatch (ch.include_pattern.getD "") r.tag_name then
    false
  else if truthy ch.exclude_pattern
      && reValid (ch.exclude_pattern.getD "")
      && reMatch (ch.exclude_pattern.getD "") r.tag_name then
    false
  else
    true

/-- `SQLiteStorage.select_best_release` (sqlite.py:829-874): per enabled
channel, the first accepted release; the answer is the Python `max` by
`published_at.timestamp()` over those picks.  `tsLt` is the timestamp
order oracle. -/
def select_best_release (tsLt : String → String → Bool) (reValid : String → Bool)
    (reMatch : String → String → Bool) (releases : List Release)
    (channels : List Channel) : Option Release :=
  match releases with
  | [] => none
  | first :: _ =>
    if channels.isEmpty then some first
    else
      let enabled_channels := channels.filter (·.enabled)
      if enabled_channels.isEmpty then some first
      else
        python_max_by tsLt (enabled_channels.filterMap
          (fun ch => releases.find? (fun r => sbr_accept reValid reMatch ch r)))

/-- The fetch step of a check: `fetch_all(limit)`, and on an empty result
the `fetch_latest()` single-release fallback (scheduler.py:132-138 and
scheduler.py:328-334). -/
def fetch_with_fallback (fetch_all : Nat → List Release) (fetch_latest : Option Release)
    (limit : Nat) : List Release :=
  let releases := fetch_all limit
  if releases.isEmpty then
    match fetch_latest with
    | some single => [single]
    | none => []
  else releases

/-- The fetch step of `ReleaseScheduler._check_tracker` (scheduler.py:132):
the periodic job path and the startup `check_all` sweep both call
`fetch_all(limit=10)`. -/
def check_tracker_fetch (fetch_all : Nat → List Release)
    (fetch_latest : Option Release) : List Release :=
  fetch_with_fallback fetch_all fetch_latest 10

/-- The fetch step of `ReleaseScheduler.check_tracker_now_v2`
(scheduler.py:328): the interactive check-now path calls
`fetch_all(limit=30)`. -/
def check_tracker_now_v2_fetch (fetch_all : Nat → List Release)
    (fetch_latest : Option Release) : List Release :=
  fetch_with_fallback fetch_all fetch_latest 30

/-- The accumulation loop of `GitHubTracker.fetch_all`
(github.py:97-127): parsed drafts are appended only when
`_should_include` passes. -/
def github_fetch_filter (reValid : String → Bool) (reMatch : String → String → Bool)
    (cfg : TrackerSettings) (drafts : List Release) : List Release :=
  drafts.foldl (fun acc d => if should_include reValid reMatch cfg d then acc ++ [d] else acc) []

/-- The return expression of `GitLabTracker.fetch_all` (gitlab.py:87-88):
the drafts passing `_should_include`, truncated to `limit`. -/
def gitlab_fetch_filter (reValid : String → Bool) (reMatch : String → String → Bool)
    (cfg : TrackerSettings) (drafts : List Release) (limit : Nat) : List Release :=
  (drafts.filter (should_include reValid reMatch cfg)).take limit

/-- Stable insertion of one element into a descending-sorted list: placed
before the first strictly-smaller element, after equals. -/
def insert_desc (tsLt : String → String → Bool) (x : Release) : List Release → List Release
  | [] => [x]
  | y :: ys =>
    if tsLt y.published_at x.published_at then x :: y :: ys else y :: insert_desc tsLt x ys

/-- Python `releases.sort(key=published_at, reverse=True)`: a stable
descending sort. -/
def sort_desc (tsLt : String → String → Bool) (rs : List Release) : List Release :=
  rs.foldl (fun acc x => insert_desc tsLt x acc) []

/-- The return pipeline of `HelmTracker.fetch_all` (helm.py:46-52): sort
by publication time descending, keep the drafts passing
`_should_include`, truncate to `limit`. -/
def helm_fetch_filter (tsLt : String → String → Bool) (reValid : String → Bool)
    (reMatch : String → String → Bool) (cfg : TrackerSettings)
    (drafts : List Release) (limit : Nat) : List Release :=
  ((sort_desc tsLt drafts).filter (should_include reValid reMatch cfg)).take limit

/-- `delete_tracker_config` (`DELETE FROM trackers WHERE name=?`). -/
def delete_tracker_config (st : Store) (name : String) : Store :=
  { st with tracker_configs := st.tracker_configs.filter (fun n => !(n == name)) }

/-- `SQLiteStorage.delete_tracker_status` (sqlite.py:912-916):
`DELETE FROM tracker_status WHERE name=?`. -/
def delete_tracker_status (st : Store) (name : String) : Store :=
  { st with tracker_status := st.tracker_status.filter (fun n => !(n == name)) }

/-- `SQLiteStorage.delete_releases_by_tracker` (sqlite.py:918-922):
`DELETE FROM releases WHERE tracker_name=?` on a fresh
`aiosqlite.connect` connection.  No connection in the code base ever
issues `PRAGMA foreign_keys=ON`, and SQLite leaves foreign-key
enforcement off by default, so the `ON DELETE CASCADE` declared on
`release_history.release_id` (sqlite.py:176) never fires:
`release_history` is untouched. -/
def delete_releases_by_tracker (st : Store) (tracker_name : String) : Store :=
  { st with releases := st.releases.filter (fun row => !(row.tracker_name == tracker_name)) }

/-- The `delete_tracker` route handler (routers/trackers.py:199-224):
delete the config row, the status row, then the tracker's releases. -/
def delete_tracker (st : Store) (name : String) : Store :=
  delete_releases_by_tracker (delete_tracker_status (delete_tracker_config st name) name) name

/-- `SQLiteStorage.update_tracker_status` (sqlite.py:876-894):
`INSERT OR REPLACE` keyed on `name`; at the key level, the row set gains
`name` if absent. -/
def update_tracker_status (st : Store) (name : String) : Store :=
  if st.tracker_status.contains name then st
  else { st with tracker_status := st.tracker_status ++ [name] }

/-- The token field of one item of the credentials list response
(routers/credentials.py:27-29): a truthy token is masked — first four and
last four characters when longer than eight characters, the constant
"****" otherwise. -/
def get_credentials_token_field (token : String) : String :=
  if !(token == "") then
    if token.length > 8 then token.take 4 ++ "..." ++ token.drop (token.length - 4)
    else "****"
  else token

/-- The token field of the credential detail response
(routers/credentials.py:52-54): the same masking. -/
def get_credential_token_field (token : String) : String :=
  if !(token == "") then
    if token.length > 8 then token.take 4 ++ "..." ++ token.drop (token.length - 4)
    else "****"
  else token

/-- One HTTP exchange as `WebhookNotifier.notify` observes it.  The 429
case carries the `Retry-After` header (`none` = absent or falsy,
`some none` = present but `float()` raises, `some (some v)` = parses to
`v` seconds) and the JSON body `retry_after` field (`none` = absent or
unparsable). -/
inductive WebhookResponse where
  | ok
  | rateLimited (retry_after_header : Option (Option ℚ)) (body_retry_after : Option ℚ)
  | httpError
  | transportError
deriving DecidableEq

/-- The backoff computed for a 429 (webhook.py:89-109): default 1 s,
overridden by the `Retry-After` header parsed as seconds; only when the
header is absent, by the body field `retry_after` — divided by 1000 when
greater than 60, taken as seconds otherwise; plus a 0.5 s margin, capped
at 30 s. -/
def wait_429 (hdr : Option (Option ℚ)) (body : Option ℚ) : ℚ :=
  let wait_time : ℚ :=
    match hdr with
    | some (some v) => v
    | some none => 1
    | none =>
      match body with
      | some raw => if raw > 60 then raw / 1000 else raw
      | none => 1
  min (wait_time + 1 / 2) 30

/-- An observable step of the notify loop: an HTTP POST, or a sleep. -/
inductive NotifyAction where
  | request
  | wait (seconds : ℚ)
deriving DecidableEq

/-- The `for attempt in range(4)` retry loop of `WebhookNotifier.notify`
(webhook.py:72-140), as the trace of requests and sleeps it performs.
`fuel` is the number of remaining iterations of `range(4)`; 2xx returns,
429 sleeps `wait_429` and retries unless the attempt budget is exhausted,
a non-429 HTTP error returns with no retry, and a transport error retries
after an exponential 2^attempt backoff. -/
def notify_loop (responses : Nat → WebhookResponse) : Nat → Nat → List NotifyAction
  | _, 0 => []
  | attempt, fuel + 1 =>
    NotifyAction.request ::
      match responses attempt with
      | .ok => []
      | .rateLimited hdr body =>
        if attempt ≥ 3 then []
        else NotifyAction.wait (wait_429 hdr body) :: notify_loop responses (attempt + 1) fuel
      | .httpError => []
      | .transportError =>
        if attempt < 3 then
          NotifyAction.wait ((2 : ℚ) ^ attempt) :: notify_loop responses (attempt + 1) fuel
        else []

/-- The loop resumed at a given attempt index; the loop couples the
attempt counter with the remaining `range(4)` budget. -/
def notify_from (responses : Nat → WebhookResponse) (attempt : Nat) : List NotifyAction :=
  notify_loop responses attempt (4 - attempt)

/-- `WebhookNotifier.notify` (webhook.py:22-140): nothing happens when the
event is not subscribed; otherwise the retry loop runs from attempt 0. -/
def notify (events : List String) (event : String)
    (responses : Nat → WebhookResponse) : List NotifyAction :=
  if events.contains event then notify_from responses 0 else []

/-- The number of HTTP POSTs in a notify trace. -/
def request_count (trace : List NotifyAction) : Nat :=
  (trace.filter (fun a => a == NotifyAction.request)).length

/-! ## Store well-formedness and reachability -/

/-- The number of `release_history` rows whose `release_id` is `i`. -/
def hist_count (hist : List HistoryRow) (i : Nat) : Nat :=
  (hist.filter (fun h => h.release_id == i)).length

/-- Spec invariant: every `releases` row owns exactly `republish_count`
history rows. -/
def history_matches_count (st : Store) : Prop :=
  ∀ row ∈ st.releases, hist_count st.release_history row.id = row.republish_count

/-- Structural well-formedness of a store: the history-count invariant,
the AUTOINCREMENT bound on ids, id uniqueness, and the
`UNIQUE(tracker_name, tag_name)` constraint of the `releases` table. -/
def StoreWF (st : Store) : Prop :=
  history_matches_count st ∧
  (∀ row ∈ st.releases, row.id < st.next_id) ∧
  (∀ h ∈ st.release_history, h.release_id < st.next_id) ∧
  st.releases.Pairwise (fun a b => a.id ≠ b.id) ∧
  st.releases.Pairwise (fun a b => (a.tracker_name, a.tag_name) ≠ (b.tracker_name, b.tag_name))

/-- Store states reachable through the persistence operations that touch
the `releases` / `release_history` / `tracker_status` tables. -/
inductive Reachable : Store → Prop where
  | init : Reachable initStore
  | save (st st2 : Store) (r : Release) (res : SaveResult) :
      Reachable st → save_release st r = .ok (st2, res) → Reachable st2
  | status (st : Store) (name : String) :
      Reachable st → Reachable (update_tracker_status st name)
  | deleteReleases (st : Store) (name : String) :
      Reachable st → Reachable (delete_releases_by_tracker st name)
  | deleteAll (st : Store) (name : String) :
      Reachable st → Reachable (delete_tracker st name)

theorem matches_key_iff (tn tg : String) (row : ReleaseRow) :
    matches_key tn tg row = true ↔ row.tracker_name = tn ∧ row.tag_name = tg := by
  simp [matches_key]

theorem matching_unique {l : List ReleaseRow} {tn tg : String}
    (hw : l.Pairwise (fun a b => (a.tracker_name, a.tag_name) ≠ (b.tracker_name, b.tag_name)))
    {a b : ReleaseRow} (ha : a ∈ l) (hb : b ∈ l)
    (hka : matches_key tn tg a = true) (hkb : matches_key tn tg b = true) : a = b := by
  by_contra hne
  have hsym : Symmetric (fun x y : ReleaseRow =>
      (x.tracker_name, x.tag_name) ≠ (y.tracker_name, y.tag_name)) :=
    fun x y hxy => Ne.symm hxy
  have := hw.forall hsym ha hb hne
  obtain ⟨ha1, ha2⟩ := (matches_key_iff tn tg a).1 hka
  obtain ⟨hb1, hb2⟩ := (matches_key_iff tn tg b).1 hkb
  exact this (by rw [ha1, ha2, hb1, hb2])

theorem id_unique {l : List ReleaseRow}
    (hw : l.Pairwise (fun a b => a.id ≠ b.id))
    {a b : ReleaseRow} (ha : a ∈ l) (hb : b ∈ l) (hid : a.id = b.id) : a = b := by
  by_contra hne
  have hsym : Symmetric (fun x y : ReleaseRow => x.id ≠ y.id) := fun x y hxy => Ne.symm hxy
  exact hw.forall hsym ha hb hne hid

theorem find_release_mem {st : Store} {tn tg : String} {old : ReleaseRow}
    (h : find_release st tn tg = some old) :
    old ∈ st.releases ∧ matches_key tn tg old = true := by
  unfold find_release at h
  exact ⟨List.mem_of_find?_eq_some h, List.find?_some h⟩

theorem hist_count_append (hist : List HistoryRow) (h : HistoryRow) (i : Nat) :
    hist_count (hist ++ [h]) i =
      hist_count hist i + (if h.release_id = i then 1 else 0) := by
  by_cases hc : h.release_id = i <;>
    simp [hist_count, List.filter_append, hc]

theorem hist_count_eq_zero {hist : List HistoryRow} {i : Nat}
    (h : ∀ x ∈ hist, x.release_id ≠ i) : hist_count hist i = 0 := by
  have hnil : hist.filter (fun x => x.release_id == i) = [] := by
    rw [List.filter_eq_nil_iff]
    intro a ha
    simpa using h a ha
  simp [hist_count, hnil]

theorem update_where_mem {rows : List ReleaseRow} {tn tg : String}
    {f : ReleaseRow → ReleaseRow} {row2 : ReleaseRow}
    (h : row2 ∈ update_where rows tn tg f) :
    ∃ row ∈ rows, row2 = if matches_key tn tg row then f row else row := by
  unfold update_where at h
  obtain ⟨row, hrow, heq⟩ := List.mem_map.1 h
  exact ⟨row, hrow, heq.symm⟩

theorem update_where_image {rows : List ReleaseRow} {tn tg : String}
    {f : ReleaseRow → ReleaseRow} {row : ReleaseRow} (h : row ∈ rows) :
    (if matches_key tn tg row then f row else row) ∈ update_where rows tn tg f :=
  List.mem_map_of_mem _ h

theorem update_where_pairwise_ne {α : Type} (k : ReleaseRow → α)
    {rows : List ReleaseRow} {tn tg : String} {f : ReleaseRow → ReleaseRow}
    (hk : ∀ row, k (f row) = k row)
    (h : rows.Pairwise (fun a b => k a ≠ k b)) :
    (update_where rows tn tg f).Pairwise (fun a b => k a ≠ k b) := by
  unfold update_where
  rw [List.pairwise_map]
  refine h.imp ?_
  intro a b hab
  have hga : k (if matches_key tn tg a then f a else a) = k a := by
    by_cases hm : matches_key tn tg a <;> simp [hm, hk]
  have hgb : k (if matches_key tn tg b then f b else b) = k b := by
    by_cases hm : matches_key tn tg b <;> simp [hm, hk]
  rw [hga, hgb]
  exact hab

@[simp] theorem insert_row_id (st : Store) (r : Release) :
    (insert_row st r).id = st.next_id := rfl

@[simp] theorem insert_row_count (st : Store) (r : Release) :
    (insert_row st r).republish_count = 0 := rfl

@[simp] theorem insert_row_tn (st : Store) (r : Release) :
    (insert_row st r).tracker_name = r.tracker_name := rfl

@[simp] theorem insert_row_tag (st : Store) (r : Release) :
    (insert_row st r).tag_name = r.tag_name := rfl

@[simp] theorem republish_update_id (r : Release) (c : Nat) (row : ReleaseRow) :
    (republish_update r c row).id = row.id := rfl

@[simp] theorem republish_update_count (r : Release) (c : Nat) (row : ReleaseRow) :
    (republish_update r c row).republish_count = c := rfl

@[simp] theorem republish_update_tn (r : Release) (c : Nat) (row : ReleaseRow) :
    (republish_update r c row).tracker_name = row.tracker_name := rfl

@[simp] theorem republish_update_tag (r : Release) (c : Nat) (row : ReleaseRow) :
    (republish_update r c row).tag_name = row.tag_name := rfl

@[simp] theorem metadata_update_id (r : Release) (oc : Option String) (row : ReleaseRow) :
    (metadata_update r oc row).id = row.id := rfl

@[simp] theorem metadata_update_count (r : Release) (oc : Option String) (row : ReleaseRow) :
    (metadata_update r oc row).republish_count = row.republish_count := rfl

@[simp] theorem metadata_update_tn (r : Release) (oc : Option String) (row : ReleaseRow) :
    (metadata_update r oc row).tracker_name = row.tracker_name := rfl

@[simp] theorem metadata_update_tag (r : Release) (oc : Option String) (row : ReleaseRow) :
    (metadata_update r oc row).tag_name = row.tag_name := rfl

@[simp] theorem history_snapshot_rid (old : ReleaseRow) :
    (history_snapshot old).release_id = old.id := rfl

theorem StoreWF_of_sub {st st2 : Store} (hwf : StoreWF st)
    (hrel : st2.releases.Sublist st.releases)
    (hh : st2.release_history = st.release_history)
    (hn : st2.next_id = st.next_id) : StoreWF st2 := by
  obtain ⟨hcnt, hid, hhid, hpid, hpkey⟩ := hwf
  refine ⟨?_, ?_, ?_, hpid.sublist hrel, hpkey.sublist hrel⟩
  · intro row h2
    rw [hh]
    exact hcnt row (hrel.subset h2)
  · intro row h2
    rw [hn]
    exact hid row (hrel.subset h2)
  · intro h h2
    rw [hn]
    exact hhid h (hh ▸ h2)

theorem save_release_WF {st st2 : Store} {r : Release} {res : SaveResult}
    (hwf : StoreWF st) (hsave : save_release st r = .ok (st2, res)) : StoreWF st2 := by
  obtain ⟨hcnt, hid, hhid, hpid, hpkey⟩ := hwf
  unfold save_release at hsave
  cases hfind : find_release st r.tracker_name r.tag_name with
  | none =>
    rw [hfind] at hsave
    simp only [Except.ok.injEq, Prod.mk.injEq] at hsave
    obtain ⟨hst2, hres⟩ := hsave
    subst hst2
    unfold find_release at hfind
    refine ⟨?_, ?_, ?_, ?_, ?_⟩
    · intro row hrow
      rcases List.mem_append.1 hrow with hmem | hmem
      · exact hcnt row hmem
      · have hrow' : row = insert_row st r := by simpa using hmem
        subst hrow'
        have h0 : hist_count st.release_history (insert_row st r).id = 0 := by
          apply hist_count_eq_zero
          intro x hx
          have hlt := hhid x hx
          simp only [insert_row_id]
          omega
        simpa using h0
    · intro row hrow
      rcases List.mem_append.1 hrow with hmem | hmem
      · exact Nat.lt_succ_of_lt (hid row hmem)
      · have hrow' : row = insert_row st r := by simpa using hmem
        subst hrow'
        simp
    · intro h h2
      exact Nat.lt_succ_of_lt (hhid h h2)
    · rw [List.pairwise_append]
      refine ⟨hpid, by simp, ?_⟩
      intro a ha b hb
      have hb' : b = insert_row st r := by simpa using hb
      subst hb'
      have hlt := hid a ha
      simp only [insert_row_id]
      omega
    · rw [List.pairwise_append]
      refine ⟨hpkey, by simp, ?_⟩
      intro a ha b hb
      have hb' : b = insert_row st r := by simpa using hb
      subst hb'
      have hnm := List.find?_eq_none.1 hfind a ha
      intro hcontra
      simp only [insert_row_tn, insert_row_tag, Prod.mk.injEq] at hcontra
      exact hnm ((matches_key_iff _ _ _).2 hcontra)
  | some old =>
    rw [hfind] at hsave
    dsimp only [] at hsave
    obtain ⟨hold_mem, hold_key⟩ := find_release_mem hfind
    by_cases hrc : republish_cond r old = true
    · rw [if_pos hrc] at hsave
      cases hnull : old.commit_sha with
      | none =>
        rw [hnull] at hsave
        simp at hsave
      | some sha =>
        rw [hnull] at hsave
        simp only [reduceCtorEq, if_false, Except.ok.injEq, Prod.mk.injEq] at hsave
        obtain ⟨hst2, hres⟩ := hsave
        subst hst2
        refine ⟨?_, ?_, ?_, ?_, ?_⟩
        · intro row2 hrow2
          obtain ⟨row, hrow, hrow2eq⟩ := update_where_mem hrow2
          by_cases hm : matches_key r.tracker_name r.tag_name row = true
          · have hroweq : row = old := matching_unique hpkey hrow hold_mem hm hold_key
            subst hroweq
            rw [if_pos hm] at hrow2eq
            subst hrow2eq
            rw [hist_count_append]
            have hc := hcnt row hrow
            simp [hc]
          · rw [if_neg hm] at hrow2eq
            rw [hrow2eq]
            rw [hist_count_append]
            have hid_ne : old.id ≠ row.id := by
              intro heq
              have heq2 : old = row := id_unique hpid hold_mem hrow heq
              exact hm (heq2 ▸ hold_key)
            simp only [history_snapshot_rid, hid_ne, if_false]
            exact hcnt row hrow
        · intro row2 hrow2
          obtain ⟨row, hrow, hrow2eq⟩ := update_where_mem hrow2
          have hideq : row2.id = row.id := by
            by_cases hm : matches_key r.tracker_name r.tag_name row = true
            · rw [if_pos hm] at hrow2eq
              subst hrow2eq
              simp
            · rw [if_neg hm] at hrow2eq
              subst hrow2eq
              rfl
          rw [hideq]
          exact hid row hrow
        · intro h h2
          rcases List.mem_append.1 h2 with hmem | hmem
          · exact hhid h hmem
          · have hh' : h = history_snapshot old := by simpa using hmem
            subst hh'
            simpa using hid old hold_mem
        · exact update_where_pairwise_ne ReleaseRow.id (fun row => by simp) hpid
        · exact update_where_pairwise_ne (fun row => (row.tracker_name, row.tag_name))
            (fun row => by simp) hpkey
    · rw [if_neg hrc] at hsave
      simp only [Except.ok.injEq, Prod.mk.injEq] at hsave
      obtain ⟨hst2, hres⟩ := hsave
      subst hst2
      refine ⟨?_, ?_, ?_, ?_, ?_⟩
      · intro row2 hrow2
        obtain ⟨row, hrow, hrow2eq⟩ := update_where_mem hrow2
        have hpres : row2.id = row.id ∧ row2.republish_count = row.republish_count := by
          by_cases hm : matches_key r.tracker_name r.tag_name row = true
          · rw [if_pos hm] at hrow2eq
            subst hrow2eq
            simp
          · rw [if_neg hm] at hrow2eq
            subst hrow2eq
            exact ⟨rfl, rfl⟩
        rw [hpres.1, hpres.2]
        exact hcnt row hrow
      · intro row2 hrow2
        obtain ⟨row, hrow, hrow2eq⟩ := update_where_mem hrow2
        have hideq : row2.id = row.id := by
          by_cases hm : matches_key r.tracker_name r.tag_name row = true
          · rw [if_pos hm] at hrow2eq
            subst hrow2eq
            simp
          · rw [if_neg hm] at hrow2eq
            subst hrow2eq
            rfl
        rw [hideq]
        exact hid row hrow
      · exact hhid
      · exact update_where_pairwise_ne ReleaseRow.id (fun row => by simp) hpid
      · exact update_where_pairwise_ne (fun row => (row.tracker_name, row.tag_name))
          (fun row => by simp) hpkey

theorem reachable_WF {st : Store} (h : Reachable st) : StoreWF st := by
  induction h with
  | init =>
    refine ⟨?_, ?_, ?_, ?_, ?_⟩ <;> simp [initStore, history_matches_count]
  | save st st2 r res hre hsave ih => exact save_release_WF ih hsave
  | status st name hre ih =>
    unfold update_tracker_status
    split
    · exact ih
    · exact StoreWF_of_sub ih (List.Sublist.refl _) rfl rfl
  | deleteReleases st name hre ih =>
    exact StoreWF_of_sub ih (List.filter_sublist _) rfl rfl
  | deleteAll st name hre ih =>
    exact StoreWF_of_sub ih (List.filter_sublist _) rfl rfl

theorem find?_append_none {α : Type} (p : α → Bool) {l1 : List α} (l2 : List α)
    (h : l1.find? p = none) : (l1 ++ l2).find? p = l2.find? p := by
  induction l1 with
  | nil => rfl
  | cons a l ih =>
    rw [List.find?_eq_none] at h
    have hpa : ¬ p a = true := h a (by simp)
    have hl : l.find? p = none := by
      rw [List.find?_eq_none]
      intro x hx
      exact h x (by simp [hx])
    rw [List.cons_append, List.find?_cons_of_neg _ hpa]
    exact ih hl

theorem matches_key_insert_self (st : Store) (r : Release) :
    matches_key r.tracker_name r.tag_name (insert_row st r) = true := by
  simp [matches_key]

theorem republish_cond_insert_self (st : Store) (r : Release) :
    republish_cond r (insert_row st r) = false := by
  unfold republish_cond
  by_cases hb : (truthy r.commit_sha && truthy (insert_row st r).commit_sha) = true <;>
    simp [hb] <;> rfl

/-! ## Claim theorems -/

/-- C2: in every reachable store state every `releases` row owns exactly
`republish_count` history rows with its `id`; every successful
`save_release` preserves this, and it either leaves the history table and
every existing row's `republish_count` unchanged (verdicts new and
metadata), or — exactly when the verdict is a republish — appends exactly
one history row, the pre-overwrite snapshot of the conflicting row's
name, commit_sha, published_at, body and channel_name, and increments
that row's `republish_count` by exactly one, atomically (a raised error
commits nothing and no intermediate state is observable). -/
theorem save_release_history_invariant (st : Store) (hre : Reachable st) :
    history_matches_count st ∧
    ∀ r st2 res, save_release st r = .ok (st2, res) →
      history_matches_count st2 ∧
      (res.is_republish = false →
        st2.release_history = st.release_history ∧
        ∀ row ∈ st.releases, ∃ row2 ∈ st2.releases,
          row2.id = row.id ∧ row2.republish_count = row.republish_count) ∧
      (res.is_republish = true →
        ∃ old, find_release st r.tracker_name r.tag_name = some old ∧
          st2.release_history = st.release_history ++
            [⟨old.id, some old.name, old.commit_sha, old.published_at, old.body,
              old.channel_name⟩] ∧
          ∃ row2 ∈ st2.releases, row2.id = old.id ∧
            row2.republish_count = old.republish_count + 1) := by
  have hwf := reachable_WF hre
  refine ⟨hwf.1, ?_⟩
  intro r st2 res hsave
  have hwf2 := save_release_WF hwf hsave
  refine ⟨hwf2.1, ?_, ?_⟩
  · intro hfalse
    unfold save_release at hsave
    cases hfind : find_release st r.tracker_name r.tag_name with
    | none =>
      rw [hfind] at hsave
      simp only [Except.ok.injEq, Prod.mk.injEq] at hsave
      obtain ⟨hst2, hres⟩ := hsave
      subst hst2
      refine ⟨rfl, ?_⟩
      intro row hrow
      exact ⟨row, List.mem_append_left _ hrow, rfl, rfl⟩
    | some old =>
      rw [hfind] at hsave
      dsimp only [] at hsave
      by_cases hrc : republish_cond r old = true
      · rw [if_pos hrc] at hsave
        cases hnull : old.commit_sha with
        | none =>
          rw [hnull] at hsave
          simp at hsave
        | some sha =>
          rw [hnull] at hsave
          simp only [reduceCtorEq, if_false, Except.ok.injEq, Prod.mk.injEq] at hsave
          obtain ⟨hst2, hres⟩ := hsave
          rw [← hres] at hfalse
          simp at hfalse
      · rw [if_neg hrc] at hsave
        simp only [Except.ok.injEq, Prod.mk.injEq] at hsave
        obtain ⟨hst2, hres⟩ := hsave
        subst hst2
        refine ⟨rfl, ?_⟩
        intro row hrow
        refine ⟨if matches_key r.tracker_name r.tag_name row then
            metadata_update r old.commit_sha row else row,
          update_where_image hrow, ?_, ?_⟩ <;>
          by_cases hm : matches_key r.tracker_name r.tag_name row = true <;>
            simp [hm]
  · intro htrue
    unfold save_release at hsave
    cases hfind : find_release st r.tracker_name r.tag_name with
    | none =>
      rw [hfind] at hsave
      simp only [Except.ok.injEq, Prod.mk.injEq] at hsave
      obtain ⟨hst2, hres⟩ := hsave
      rw [← hres] at htrue
      simp at htrue
    | some old =>
      rw [hfind] at hsave
      dsimp only [] at hsave
      obtain ⟨hold_mem, hold_key⟩ := find_release_mem hfind
      by_cases hrc : republish_cond r old = true
      · rw [if_pos hrc] at hsave
        cases hnull : old.commit_sha with
        | none =>
          rw [hnull] at hsave
          simp at hsave
        | some sha =>
          rw [hnull] at hsave
          simp only [reduceCtorEq, if_false, Except.ok.injEq, Prod.mk.injEq] at hsave
          obtain ⟨hst2, hres⟩ := hsave
          subst hst2
          refine ⟨old, rfl, rfl, ?_⟩
          refine ⟨republish_update r (old.republish_count + 1) old, ?_, rfl, rfl⟩
          have := @update_where_image st.releases r.tracker_name r.tag_name
            (republish_update r (old.republish_count + 1)) old hold_mem
          rw [if_pos hold_key] at this
          exact this
      · rw [if_neg hrc] at hsave
        simp only [Except.ok.injEq, Prod.mk.injEq] at hsave
        obtain ⟨hst2, hres⟩ := hsave
        rw [← hres] at htrue
        simp at htrue

def c2_draft : Release :=
  ⟨"s", "n", "t", "1", "2024-01-01T00:00:00+00:00", "u", false, none, none, some "aaa"⟩

def c2_st1 : Store :=
  ⟨[⟨0, "s", "n", "t", "1", "2024-01-01T00:00:00+00:00", "u", false, none, none,
    some "aaa", 0⟩], [], [], [], 1⟩

/-- Witness for C2: the invariant holds in the initial store, and a
concrete first save leaves the history table unchanged. -/
theorem save_release_history_invariant_witness :
    history_matches_count initStore ∧
    save_release initStore c2_draft = .ok (c2_st1, ⟨true, false, none⟩) ∧
    c2_st1.release_history = initStore.release_history := by
  have h := save_release_history_invariant initStore Reachable.init
  have hsave : save_release initStore c2_draft = .ok (c2_st1, ⟨true, false, none⟩) := by rfl
  exact ⟨h.1, hsave, ((h.2 c2_draft c2_st1 ⟨true, false, none⟩ hsave).2.1 rfl).1⟩

/-- C1 (amended): on a save whose `(source, tag)` already exists, when
both the stored and the incoming `commit_sha` are truthy the verdict is a
republish iff they differ; in every other presence combination —
including exactly one of the two being present — the code falls back to
the `published_at` comparison: equal timestamps give a metadata verdict,
while differing timestamps mean republish, which returns a republish
verdict when the stored `commit_sha` is not SQL NULL and raises an
`IntegrityError` (no verdict at all) when it is. -/
theorem save_release_republish_verdict (st : Store) (r : Release) (old : ReleaseRow)
    (hfind : find_release st r.tracker_name r.tag_name = some old) :
    ((truthy r.commit_sha && truthy old.commit_sha) = true →
      (save_verdict (save_release st r)).map (fun v => v.is_republish) =
        some (old.commit_sha != r.commit_sha)) ∧
    ((truthy r.commit_sha && truthy old.commit_sha) = false →
      (r.published_at = old.published_at →
        (save_verdict (save_release st r)).map (fun v => v.is_republish) = some false) ∧
      (r.published_at ≠ old.published_at →
        (old.commit_sha = none →
          save_release st r =
            .error "IntegrityError: NOT NULL constraint failed: release_history.commit_sha") ∧
        (old.commit_sha ≠ none →
          (save_verdict (save_release st r)).map (fun v => v.is_republish) = some true))) := by
  constructor
  · intro hb
    have hrc : republish_cond r old = (old.commit_sha != r.commit_sha) := by
      unfold republish_cond
      rw [if_pos hb]
    have hnn : old.commit_sha ≠ none := by
      intro hn
      rw [hn] at hb
      simp [truthy] at hb
    unfold save_release
    rw [hfind]
    dsimp only []
    rw [hrc]
    by_cases hd : (old.commit_sha != r.commit_sha) = true
    · rw [if_pos hd, if_neg hnn, hd]
      rfl
    · rw [if_neg hd]
      have hd' : (old.commit_sha != r.commit_sha) = false := by
        simpa using hd
      rw [hd']
      rfl
  · intro hb
    have hrc : republish_cond r old = (r.published_at != old.published_at) := by
      unfold republish_cond
      rw [hb]
      simp
    constructor
    · intro hpe
      have hrc0 : republish_cond r old = false := by
        rw [hrc, hpe]
        simp
      unfold save_release
      rw [hfind]
      dsimp only []
      rw [hrc0]
      rfl
    · intro hpn
      have hrc1 : republish_cond r old = true := by
        rw [hrc]
        simpa using hpn
      constructor
      · intro hnull
        unfold save_release
        rw [hfind]
        dsimp only []
        rw [hrc1, if_pos rfl, hnull]
        simp
      · intro hnn
        unfold save_release
        rw [hfind]
        dsimp only []
        rw [hrc1]
        simp only [if_true]
        rw [if_neg hnn]
        rfl

def c1w_row : ReleaseRow :=
  ⟨0, "s", "n", "t", "1", "2024-01-01T00:00:00+00:00", "u", false, none, none,
   some "aaa", 0⟩

def c1w_st : Store := ⟨[c1w_row], [], [], [], 1⟩

def c1w_draft : Release :=
  ⟨"s", "n", "t", "1", "2024-01-01T00:00:00+00:00", "u", false, none, none, some "bbb"⟩

/-- Witness for C1: with both SHAs present and different, the concrete
save returns a republish verdict. -/
theorem save_release_republish_verdict_witness :
    (save_verdict (save_release c1w_st c1w_draft)).map (fun v => v.is_republish) =
      some (c1w_row.commit_sha != c1w_draft.commit_sha) :=
  (save_release_republish_verdict c1w_st c1w_draft c1w_row rfl).1 rfl

def c1x_draft1 : Release :=
  ⟨"s", "n", "t", "1", "2024-01-01T00:00:00+00:00", "u", false, none, none, some "aaa"⟩

def c1x_draft2 : Release :=
  ⟨"s", "n", "t", "1", "2024-01-02T00:00:00+00:00", "u", false, none, none, none⟩

def c1x_st1 : Store :=
  ⟨[⟨0, "s", "n", "t", "1", "2024-01-01T00:00:00+00:00", "u", false, none, none,
    some "aaa", 0⟩], [], [], [], 1⟩

/-- Counterexample to C1 as stated: after a first save stores a truthy
`commit_sha`, a second save of the same tag with an absent `commit_sha`
and a changed `published_at` — exactly one of the two SHAs present —
returns a republish verdict, not the metadata verdict the claim
requires. -/
theorem save_release_one_sided_sha_counterexample :
    save_release initStore c1x_draft1 = .ok (c1x_st1, ⟨true, false, none⟩) ∧
    truthy c1x_draft2.commit_sha = false ∧
    (find_release c1x_st1 "s" "t").map (fun row => truthy row.commit_sha) = some true ∧
    c1x_draft2.published_at ≠ c1x_draft1.published_at ∧
    (save_verdict (save_release c1x_st1 c1x_draft2)).map (fun v => v.is_republish) =
      some true := by
  refine ⟨by rfl, rfl, by rfl, by decide, by rfl⟩

/-- C6: starting from any store in which the draft's `(source, tag)` pair
is absent, saving the identical draft twice returns the verdict new —
inserting the row with `republish_count = 0` — and then the verdict
metadata; any further save of that pair can never return a new verdict,
and the duplicate insert is surfaced as a verdict, not an error. -/
theorem save_release_twice_new_then_metadata (st : Store) (r : Release)
    (habs : find_release st r.tracker_name r.tag_name = none) :
    ∃ st1, save_release st r = .ok (st1, ⟨true, false, none⟩) ∧
      (∃ row ∈ st1.releases, matches_key r.tracker_name r.tag_name row = true ∧
        row.republish_count = 0) ∧
      (∃ st2, save_release st1 r = .ok (st2, ⟨false, false, none⟩)) ∧
      (∀ r2 : Release, r2.tracker_name = r.tracker_name → r2.tag_name = r.tag_name →
        ∀ st3 res3, save_release st1 r2 = .ok (st3, res3) → res3.is_new = false) := by
  have hsave1 : save_release st r =
      .ok ({ st with
             releases := st.releases ++ [insert_row st r]
             next_id := st.next_id + 1 },
           ⟨true, false, none⟩) := by
    unfold save_release
    rw [habs]
  refine ⟨_, hsave1, ⟨insert_row st r, by simp, matches_key_insert_self st r, rfl⟩, ?_, ?_⟩
  · have hfind1 : find_release
        { st with
          releases := st.releases ++ [insert_row st r]
          next_id := st.next_id + 1 } r.tracker_name r.tag_name = some (insert_row st r) := by
      unfold find_release at habs ⊢
      rw [find?_append_none _ _ habs]
      simp [matches_key_insert_self st r]
    exact ⟨_, by
      unfold save_release
      rw [hfind1]
      dsimp only []
      rw [republish_cond_insert_self st r]
      rfl⟩
  · intro r2 htn htg st3 res3 hsave3
    have hfind2 : find_release
        { st with
          releases := st.releases ++ [insert_row st r]
          next_id := st.next_id + 1 } r2.tracker_name r2.tag_name = some (insert_row st r) := by
      unfold find_release at habs ⊢
      rw [htn, htg, find?_append_none _ _ habs]
      simp [matches_key_insert_self st r]
    unfold save_release at hsave3
    rw [hfind2] at hsave3
    dsimp only [] at hsave3
    by_cases hrc : republish_cond r2 (insert_row st r) = true
    · rw [if_pos hrc] at hsave3
      by_cases hnull : (insert_row st r).commit_sha = none
      · rw [if_pos hnull] at hsave3
        simp at hsave3
      · rw [if_neg hnull] at hsave3
        simp only [Except.ok.injEq, Prod.mk.injEq] at hsave3
        rw [← hsave3.2]
    · rw [if_neg hrc] at hsave3
      simp only [Except.ok.injEq, Prod.mk.injEq] at hsave3
      rw [← hsave3.2]

def c6_draft : Release :=
  ⟨"s", "n", "t", "1", "2024-01-01T00:00:00+00:00", "u", false, none, none, none⟩

/-- Witness for C6 at a concrete store and draft. -/
theorem save_release_twice_witness :
    ∃ st1, save_release initStore c6_draft = .ok (st1, ⟨true, false, none⟩) ∧
      (∃ row ∈ st1.releases, matches_key c6_draft.tracker_name c6_draft.tag_name row = true ∧
        row.republish_count = 0) ∧
      (∃ st2, save_release st1 c6_draft = .ok (st2, ⟨false, false, none⟩)) ∧
      (∀ r2 : Release, r2.tracker_name = c6_draft.tracker_name →
        r2.tag_name = c6_draft.tag_name →
        ∀ st3 res3, save_release st1 r2 = .ok (st3, res3) → res3.is_new = false) :=
  save_release_twice_new_then_metadata initStore c6_draft rfl

def c3_channel : Channel := ⟨"stable", some "release", none, none, false⟩

def c3_draft : Release := ⟨"s", "n", "v1", "1", "p", "u", false, none, none, none⟩

/-- C3 (code bug): the per-check channel loop of the scheduler never
consults `channel.enabled`, so a disabled channel still selects a draft
and tags it with its name — here a disabled, otherwise-matching channel
selects the only draft. -/
theorem scheduler_selects_for_disabled_channel :
    c3_channel.enabled = false ∧
    Channel.WF c3_channel ∧
    scheduler_channel_select (fun _ => false) (fun _ _ => false) [c3_channel] [c3_draft] =
      [{ c3_draft with channel_name := some "stable" }] := by
  refine ⟨rfl, by decide, rfl⟩

def c5_row : ReleaseRow := ⟨0, "s", "n", "t", "1", "p", "u", false, none, none, some "aaa", 1⟩

def c5_hist : HistoryRow := ⟨0, some "n", some "aaa", "p0", none, none⟩

def c5_st : Store := ⟨[c5_row], [c5_hist], ["s"], ["s"], 1⟩

/-- C5 (code bug): deleting source "s" removes its release row, status
row and config row, but — since `PRAGMA foreign_keys=ON` is never issued
and SQLite leaves the cascade disabled by default — the history row
referencing that release row survives as an orphan.  The starting state
satisfies the history-count invariant (one republish, one snapshot). -/
theorem delete_tracker_orphans_history :
    hist_count c5_st.release_history c5_row.id = c5_row.republish_count ∧
    c5_row.tracker_name = "s" ∧
    c5_hist.release_id = c5_row.id ∧
    (delete_tracker c5_st "s").releases = [] ∧
    (delete_tracker c5_st "s").tracker_status = [] ∧
    (delete_tracker c5_st "s").tracker_configs = [] ∧
    (delete_tracker c5_st "s").release_history = [c5_hist] := by
  refine ⟨rfl, rfl, rfl, rfl, rfl, rfl, rfl⟩

def c8_channel : Channel := ⟨"stable", some "release", none, none, true⟩

def c8_release : Release :=
  ⟨"s", "n", "v2.0.0-rc1", "2.0.0-rc1", "p", "u", true, none, none, none⟩

/-- C8 (code bug): `select_best_release` compares `channel.type` with
"stable" — a value the pydantic model forbids — instead of "release", so
an enabled channel of type "release" performs no type filtering there: a
prerelease that `should_include_in_channel` rejects is returned as the
headline candidate. -/
theorem select_best_release_headline_prerelease :
    Channel.WF c8_channel ∧
    c8_release.prerelease = true ∧
    should_include_in_channel (fun _ => false) (fun _ _ => false) c8_release c8_channel =
      false ∧
    select_best_release (fun _ _ => false) (fun _ => false) (fun _ _ => false)
      [c8_release] [c8_channel] = some c8_release := by
  refine ⟨by decide, rfl, rfl, rfl⟩

/-- C10: a non-empty stored token of at most eight characters is replaced
by the constant "****" in both the credentials list response and the
credential detail response, so neither endpoint reveals any of its
characters. -/
theorem credentials_short_token_masked (token : String)
    (hne : token ≠ "") (hlen : token.length ≤ 8) :
    get_credentials_token_field token = "****" ∧
    get_credential_token_field token = "****" := by
  unfold get_credentials_token_field get_credential_token_field
  have h1 : (token == "") = false := by simpa using hne
  have h2 : ¬ token.length > 8 := by omega
  simp [h1, h2]

/-- Witness for C10 at the concrete token "abc". -/
theorem credentials_short_token_masked_witness :
    get_credentials_token_field "abc" = "****" ∧
    get_credential_token_field "abc" = "****" :=
  credentials_short_token_masked "abc" (by decide) (by decide)

theorem foldl_append_filter {α : Type} (p : α → Bool) (l : List α) (acc : List α) :
    l.foldl (fun a d => if p d then a ++ [d] else a) acc = acc ++ l.filter p := by
  induction l generalizing acc with
  | nil => simp
  | cons a l ih =>
    rw [List.foldl_cons, ih, List.filter_cons]
    by_cases hp : p a = true <;> simp [hp]

theorem mem_insert_desc (tsLt : String → String → Bool) (x y : Release)
    (l : List Release) : y ∈ insert_desc tsLt x l ↔ y = x ∨ y ∈ l := by
  induction l with
  | nil => simp [insert_desc]
  | cons a l ih =>
    rw [insert_desc]
    by_cases h : tsLt a.published_at x.published_at = true
    · rw [if_pos h]
      simp
    · rw [if_neg h]
      simp only [List.mem_cons, ih]
      tauto

theorem mem_sort_desc_aux (tsLt : String → String → Bool) (l acc : List Release)
    (y : Release) :
    y ∈ l.foldl (fun acc x => insert_desc tsLt x acc) acc ↔ y ∈ acc ∨ y ∈ l := by
  induction l generalizing acc with
  | nil => simp
  | cons a l ih =>
    rw [List.foldl_cons, ih]
    simp only [mem_insert_desc, List.mem_cons]
    tauto

theorem mem_sort_desc (tsLt : String → String → Bool) (l : List Release) (y : Release) :
    y ∈ sort_desc tsLt l ↔ y ∈ l := by
  unfold sort_desc
  rw [mem_sort_desc_aux]
  simp

/-- C4 (amended): none of the three adapters returns the upstream window
unfiltered — each one filters the parsed drafts through the tracker's
`_should_include` predicate before returning: the forge-A accumulation
loop keeps exactly the passing drafts in order, and the forge-B and
chart-index adapters return only passing drafts drawn from the upstream
window. -/
theorem adapters_filter_through_should_include (reValid : String → Bool)
    (reMatch : String → String → Bool) (tsLt : String → String → Bool)
    (cfg : TrackerSettings) (drafts : List Release) (limit : Nat) :
    github_fetch_filter reValid reMatch cfg drafts =
      drafts.filter (should_include reValid reMatch cfg) ∧
    (∀ d ∈ github_fetch_filter reValid reMatch cfg drafts,
      d ∈ drafts ∧ should_include reValid reMatch cfg d = true) ∧
    (∀ d ∈ gitlab_fetch_filter reValid reMatch cfg drafts limit,
      d ∈ drafts ∧ should_include reValid reMatch cfg d = true) ∧
    (∀ d ∈ helm_fetch_filter tsLt reValid reMatch cfg drafts limit,
      d ∈ drafts ∧ should_include reValid reMatch cfg d = true) := by
  have hg : github_fetch_filter reValid reMatch cfg drafts =
      drafts.filter (should_include reValid reMatch cfg) := by
    unfold github_fetch_filter
    simpa using foldl_append_filter (should_include reValid reMatch cfg) drafts []
  refine ⟨hg, ?_, ?_, ?_⟩
  · intro d hd
    rw [hg] at hd
    exact ⟨(List.mem_filter.1 hd).1, (List.mem_filter.1 hd).2⟩
  · intro d hd
    unfold gitlab_fetch_filter at hd
    have h2 := List.take_subset _ _ hd
    exact ⟨(List.mem_filter.1 h2).1, (List.mem_filter.1 h2).2⟩
  · intro d hd
    unfold helm_fetch_filter at hd
    have h2 := List.take_subset _ _ hd
    have h3 := List.mem_filter.1 h2
    exact ⟨(mem_sort_desc tsLt drafts d).1 h3.1, h3.2⟩

def c4_cfg : TrackerSettings := ⟨[], ⟨false, none, none⟩⟩

def c4_draft : Release := ⟨"s", "n", "v1", "1", "p", "u", true, none, none, none⟩

def c4w_cfg : TrackerSettings := ⟨[], ⟨true, none, none⟩⟩

/-- Witness for C4 (amended) at a concrete configuration and draft: the
forge-A loop equals the filter, and a draft kept by the forge-A adapter
is a passing member of the upstream window. -/
theorem adapters_filter_witness :
    github_fetch_filter (fun _ => false) (fun _ _ => false) c4w_cfg [c4_draft] =
      List.filter (should_include (fun _ => false) (fun _ _ => false) c4w_cfg) [c4_draft] ∧
    (c4_draft ∈ [c4_draft] ∧
      should_include (fun _ => false) (fun _ _ => false) c4w_cfg c4_draft = true) := by
  have h := adapters_filter_through_should_include (fun _ => false) (fun _ _ => false)
    (fun _ _ => false) c4w_cfg [c4_draft] 10
  exact ⟨h.1, h.2.1 c4_draft (by decide)⟩

/-- Counterexample to C4 as stated: a prerelease draft provided by the
upstream is dropped by all three adapters before the channel filter ever
sees it (legacy filter, `include_prerelease` unset). -/
theorem adapters_filter_counterexample :
    github_fetch_filter (fun _ => false) (fun _ _ => false) c4_cfg [c4_draft] = [] ∧
    gitlab_fetch_filter (fun _ => false) (fun _ _ => false) c4_cfg [c4_draft] 10 = [] ∧
    helm_fetch_filter (fun _ _ => false) (fun _ => false) (fun _ _ => false) c4_cfg
      [c4_draft] 10 = [] ∧
    [c4_draft] ≠ ([] : List Release) := by
  refine ⟨rfl, rfl, rfl, by decide⟩

/-- C9 (amended): the periodic scheduled check (and the startup sweep,
which runs the same `_check_tracker`) fetches up to 10 drafts, while the
interactive check-now path fetches up to 30; in either path an empty
fetch result invokes the adapter's single-latest fallback. -/
theorem scheduler_fetch_limits (fetch_all : Nat → List Release)
    (fetch_latest : Option Release) :
    (fetch_all 10 ≠ [] → check_tracker_fetch fetch_all fetch_latest = fetch_all 10) ∧
    (fetch_all 10 = [] → check_tracker_fetch fetch_all fetch_latest =
      (match fetch_latest with | some s => [s] | none => [])) ∧
    (fetch_all 30 ≠ [] → check_tracker_now_v2_fetch fetch_all fetch_latest = fetch_all 30) ∧
    (fetch_all 30 = [] → check_tracker_now_v2_fetch fetch_all fetch_latest =
      (match fetch_latest with | some s => [s] | none => [])) := by
  unfold check_tracker_fetch check_tracker_now_v2_fetch fetch_with_fallback
  refine ⟨?_, ?_, ?_, ?_⟩ <;> intro h <;> simp [h, List.isEmpty_iff]

def c9w_fetch : Nat → List Release := fun limit => if limit == 10 then [c4_draft] else []

/-- Witness for C9: a fetch function that only answers at limit 10 makes
the periodic path return its result and sends the check-now path to the
(empty) fallback. -/
theorem scheduler_fetch_limits_witness :
    check_tracker_fetch c9w_fetch none = c9w_fetch 10 ∧
    check_tracker_now_v2_fetch c9w_fetch none = [] := by
  have h := scheduler_fetch_limits c9w_fetch none
  exact ⟨h.1 (by decide), h.2.2.2 (by rfl)⟩

def c9x_fetch : Nat → List Release := fun limit => if limit == 30 then [c4_draft] else []

/-- Counterexample to C9 as stated: if the periodic path fetched with
limit 30 it would obtain a draft here, but it calls `fetch_all(10)` and
falls through to the empty fallback; the limit-30 call belongs to the
interactive check-now path. -/
theorem scheduler_fetch_limits_counterexample :
    c9x_fetch 30 = [c4_draft] ∧
    check_tracker_fetch c9x_fetch none = [] ∧
    check_tracker_now_v2_fetch c9x_fetch none = [c4_draft] := by
  refine ⟨rfl, rfl, rfl⟩

@[simp] theorem request_count_nil : request_count [] = 0 := rfl

@[simp] theorem request_count_cons_request (tr : List NotifyAction) :
    request_count (NotifyAction.request :: tr) = request_count tr + 1 := by
  simp [request_count, List.filter_cons]

@[simp] theorem request_count_cons_wait (q : ℚ) (tr : List NotifyAction) :
    request_count (NotifyAction.wait q :: tr) = request_count tr := by
  simp [request_count, List.filter_cons]

theorem notify_loop_request_bound (responses : Nat → WebhookResponse)
    (a fuel : Nat) : request_count (notify_loop responses a fuel) ≤ fuel := by
  induction fuel generalizing a with
  | zero => simp [notify_loop]
  | succ n ih =>
    rw [notify_loop]
    cases responses a with
    | ok => simp
    | rateLimited hdr body =>
      by_cases h3 : a ≥ 3
      · simp [h3]
      · simp only [h3, if_false, request_count_cons_request, request_count_cons_wait]
        exact Nat.succ_le_succ (ih (a + 1))
    | httpError => simp
    | transportError =>
      by_cases h3 : a < 3
      · simp only [h3, if_true, request_count_cons_request, request_count_cons_wait]
        exact Nat.succ_le_succ (ih (a + 1))
      · simp [h3]

theorem notify_from_rate_limited (responses : Nat → WebhookResponse) (i : Nat)
    (hdr : Option (Option ℚ)) (body : Option ℚ)
    (hi : i < 3) (hr : responses i = .rateLimited hdr body) :
    notify_from responses i =
      .request :: .wait (wait_429 hdr body) :: notify_from responses (i + 1) := by
  unfold notify_from
  have hfuel : 4 - i = (4 - (i + 1)) + 1 := by omega
  rw [hfuel, notify_loop, hr]
  dsimp only []
  have h3 : ¬ i ≥ 3 := by omega
  rw [if_neg h3]

theorem notify_from_http_error (responses : Nat → WebhookResponse) (i : Nat)
    (hi : i ≤ 3) (hr : responses i = .httpError) :
    notify_from responses i = [.request] := by
  unfold notify_from
  have hfuel : 4 - i = (3 - i) + 1 := by omega
  rw [hfuel, notify_loop, hr]

/-- C7: the webhook notifier makes at most four HTTP attempts in total;
after a 429 it never retries immediately — the next request is preceded
by a sleep of exactly `min(base + 0.5, 30)` seconds, where `base` is the
`Retry-After` header parsed as seconds when present, else the JSON body
field `retry_after` (divided by 1000 when its value exceeds 60, taken as
seconds otherwise) when present, else 1 second — and a non-429 HTTP error
response terminates the delivery with no retry. -/
theorem webhook_429_backoff (responses : Nat → WebhookResponse) (i : Nat)
    (hdr : Option (Option ℚ)) (body : Option ℚ) (q : ℚ) :
    request_count (notify_from responses i) ≤ 4 - i ∧
    (i < 3 → responses i = .rateLimited hdr body →
      ((hdr = some (some q) →
        notify_from responses i =
          .request :: .wait (min (q + 1 / 2) 30) :: notify_from responses (i + 1)) ∧
       (hdr = none → ∀ raw, body = some raw →
        notify_from responses i =
          .request :: .wait (min ((if raw > 60 then raw / 1000 else raw) + 1 / 2) 30) ::
            notify_from responses (i + 1)) ∧
       (hdr = none → body = none →
        notify_from responses i =
          .request :: .wait (min (1 + 1 / 2 : ℚ) 30) :: notify_from responses (i + 1)))) ∧
    (i ≤ 3 → responses i = .httpError → notify_from responses i = [.request]) := by
  refine ⟨notify_loop_request_bound responses i (4 - i), ?_, ?_⟩
  · intro hi hr
    refine ⟨?_, ?_, ?_⟩
    · intro hh
      rw [notify_from_rate_limited responses i hdr body hi hr, hh]
      rfl
    · intro hh raw hb
      rw [notify_from_rate_limited responses i hdr body hi hr, hh, hb]
      rfl
    · intro hh hb
      rw [notify_from_rate_limited responses i hdr body hi hr, hh, hb]
      rfl
  · intro hi hr
    exact notify_from_http_error responses i hi hr

def c7w_responses : Nat → WebhookResponse :=
  fun j => if j = 0 then .rateLimited (some (some 2)) none else .httpError

/-- Witness for C7: one 429 with `Retry-After: 2`, then a terminal HTTP
error — at most four requests, a 2.5 s sleep between the two requests,
and no retry after the error. -/
theorem webhook_429_backoff_witness :
    request_count (notify_from c7w_responses 0) ≤ 4 ∧
    notify_from c7w_responses 0 =
      .request :: .wait (min ((2 : ℚ) + 1 / 2) 30) :: notify_from c7w_responses 1 ∧
    notify_from c7w_responses 1 = [.request] := by
  have h0 := webhook_429_backoff c7w_responses 0 (some (some 2)) none 2
  have h1 := webhook_429_backoff c7w_responses 1 (some (some 2)) none 2
  exact ⟨h0.1, (h0.2.1 (by omega) rfl).1 rfl, h1.2.2 (by omega) rfl⟩

end ReleaseTracker
